import Mathlib

/-!
Shallow embedding of `src/chat.py` (a Streamlit multi-model chat front-end).

Python strings are modelled as `List Char` (`Str`).  The pure helper
`extract_graphviz_info` and the whole `if prompt:` handler (prompt assembly,
conversation-store append, model routing, and error capture) are translated
directly from the source.  The external services (PIL/requests image
acquisition, the two generative-model clients, and the speech recognizer)
are modelled as environments of oracle functions: each oracle records which
outcome the external world produced, and the embedded handler reproduces
exactly the control flow the Python code performs on that outcome.
-/

abbrev Str := List Char

/-- The backtick character, written via its code point. -/
def btick : Char := Char.ofNat 96

/-- The opening-brace character, written via its code point. -/
def lbrace : Char := Char.ofNat 123

/-- The closing-brace character, written via its code point. -/
def rbrace : Char := Char.ofNat 125

/-- Python `text.split('\x60\x60\x60')`: split on non-overlapping occurrences
of the three-backtick separator, scanning left to right.  `acc` holds the
characters of the current segment in reverse. -/
def splitTicksGo : Str → Str → List Str
  | acc, c1 :: c2 :: c3 :: rest =>
      if c1 = btick && c2 = btick && c3 = btick then
        acc.reverse :: splitTicksGo [] rest
      else
        splitTicksGo (c1 :: acc) (c2 :: c3 :: rest)
  | acc, s => [acc.reverse ++ s]

/-- Python `text.split('\x60\x60\x60')` from line 33 of `src/chat.py`. -/
def splitTicks (text : Str) : List Str := splitTicksGo [] text

/-- Python substring containment `sub in s`: `sub` occurs contiguously in `s`. -/
def pyContains (sub : Str) : Str → Bool
  | [] => sub.isPrefixOf []
  | c :: rest => sub.isPrefixOf (c :: rest) || pyContains sub rest

def graphStr : Str := "graph".toList

def digraphStr : Str := "digraph".toList

/-- The filter condition of the comprehension at line 34 of `src/chat.py`:
`('graph' in graph or 'digraph' in graph) and ('\x7b' in graph and '\x7d' in graph)`. -/
def isGraphCandidate (graph : Str) : Bool :=
  (pyContains graphStr graph || pyContains digraphStr graph) &&
    (pyContains [lbrace] graph && pyContains [rbrace] graph)

/-- `extract_graphviz_info` from lines 31-34 of `src/chat.py`: split the text on
triple-backtick markers and keep the segments that mention graph/digraph and
contain both braces. -/
def extract_graphviz_info (text : Str) : List Str :=
  let graphviz_info := splitTicks text
  graphviz_info.filter isGraphCandidate

/-- Modelled from the spec (section 4.1 contract `extract_graph_blocks`): split
the text on triple-backtick fence markers; include a segment when it contains
the literal substring graph or digraph and contains both braces.  Substring
containment is expressed here through Mathlib's `List.IsInfix`, independently
of the scanning function used by the code translation. -/
def extract_graph_blocks_spec (text : Str) : List Str :=
  (splitTicks text).filter fun seg =>
    (decide (graphStr <:+: seg) || decide (digraphStr <:+: seg)) &&
      (decide ([lbrace] <:+: seg) && decide ([rbrace] <:+: seg))

theorem pyContains_iff (sub s : Str) : pyContains sub s = true ↔ sub <:+: s := by
  induction s with
  | nil =>
      simp [pyContains, List.infix_nil]
  | cons c rest ih =>
      simp [pyContains, List.infix_cons_iff, ih]

theorem pyContains_eq_decide (sub s : Str) :
    pyContains sub s = decide (sub <:+: s) := by
  by_cases h : sub <:+: s
  · simp [h, (pyContains_iff sub s).mpr h]
  · have hf : ¬ pyContains sub s = true := fun hc => h ((pyContains_iff sub s).mp hc)
    simp [h, Bool.not_eq_true] at hf ⊢
    exact hf

structure ErrInfo where
  kind : Str
  descr : Str
deriving DecidableEq

/-- Result of running a Python expression that may raise. -/
inductive PyResult (A : Type)
  | ok (val : A)
  | raised (e : ErrInfo)
deriving DecidableEq

/-- An in-memory image value, tagged with its provenance: `Image.open` applied
to the body fetched from a URL (line 180) or to an uploaded file (line 182). -/
inductive ImageVal
  | fromUrl (url : Str)
  | fromUpload (file : Str)
deriving DecidableEq

/-- One content item of a user message: the text string or the PIL image. -/
inductive MsgPart
  | text (s : Str)
  | image (img : ImageVal)
deriving DecidableEq

/-- One entry of `st.session_state.chat_session`.  A user entry holds the list
`prmt['parts']`; a model entry holds the single string stored at
`'parts': response.text` (or the stringified exception). -/
inductive Msg
  | user (parts : List MsgPart)
  | model (text : Str)
deriving DecidableEq

/-- `append_message` from lines 36-38 of `src/chat.py`. -/
def append_message (store : List Msg) (message : Msg) : List Msg :=
  store ++ [message]

abbrev SafetySetting := Str × Str

/-- The `safety_settings` list passed to `vision.generate_content`
(lines 191-194). -/
def safetySettings : List SafetySetting :=
  [("HARM_CATEGORY_HARASSMENT".toList, "BLOCK_LOW_AND_ABOVE".toList),
   ("HARM_CATEGORY_HATE_SPEECH".toList, "BLOCK_LOW_AND_ABOVE".toList)]

/-- A remote model invocation issued by the handler: either the vision model's
single-shot `generate_content` with its safety settings, or the stateful
`st.session_state.chat.send_message`. -/
inductive RemoteCall
  | visionCall (parts : List MsgPart) (safety : List SafetySetting)
  | textCall (content : Str)
deriving DecidableEq

/-- The resolved remote response.  Reading `response.text` can itself raise
(for example for a safety-blocked candidate), so the accessor is fallible. -/
structure RemoteResponse where
  textResult : PyResult Str
deriving DecidableEq

/-- Oracles for the external services.  `urlFetch`/`uploadDecode` return
`some e` when `requests.get`+`Image.open` (resp. `Image.open` on the upload)
raises `e`.  `visionGenerate` models `generate_content` followed by
`response.resolve()`; `chatSend` models `chat.send_message`; both return
`PyResult.raised e` when that invocation raises `e`. -/
structure Env where
  urlFetch : Str → Option ErrInfo
  uploadDecode : Str → Option ErrInfo
  visionGenerate : List MsgPart → List SafetySetting → PyResult RemoteResponse
  chatSend : Str → PyResult RemoteResponse

/-- Outcome of one run of the `if prompt:` handler: the resulting conversation
store, the remote model invocations issued, and `some e` when an uncaught
Python exception `e` aborted the handler. -/
structure TurnResult where
  store : List Msg
  calls : List RemoteCall
  aborted : Option ErrInfo
deriving DecidableEq

def txtFileLabel : Str := "   Text file: \n".toList

def ellipsisStr : Str := "...".toList

/-- Lines 170-176 of `src/chat.py`: decode the text attachment, prepend the
literal label, and truncate the labelled text to 5000 characters plus an
ellipsis when it is longer than 5000 characters. -/
def buildAttachmentText : Option Str → Str
  | some content =>
      let txt := txtFileLabel ++ content
      if 5000 < txt.length then txt.take 5000 ++ ellipsisStr else txt
  | none => []

/-- Python `f-string` of line 202: the exception's type name, a colon-space,
and its description. -/
def errStringOf (e : ErrInfo) : Str := e.kind ++ ": ".toList ++ e.descr

/-- `prmt['parts'][0]` as sent to `chat.send_message` (line 197); by
construction of the handler the first part is always the text part. -/
def headText : List MsgPart → Str
  | MsgPart.text s :: _ => s
  | _ => []

/-- Lines 190-197 of `src/chat.py`: route on `len(prmt['parts']) > 1` to the
vision model (with the fixed safety settings) or to the stateful chat. -/
def sendParts (env : Env) (parts : List MsgPart) :
    RemoteCall × PyResult RemoteResponse :=
  if 1 < parts.length then
    (RemoteCall.visionCall parts safetySettings, env.visionGenerate parts safetySettings)
  else
    (RemoteCall.textCall (headText parts), env.chatSend (headText parts))

/-- Lines 199-202 of `src/chat.py`.  An exception from the call invocation
itself was raised outside the `try` and aborts the handler; an exception from
reading `response.text` is caught and appended as a model message. -/
def recordResponse (store : List Msg) (call : RemoteCall) :
    PyResult RemoteResponse → TurnResult
  | PyResult.raised e => ⟨store, [call], some e⟩
  | PyResult.ok ⟨PyResult.ok t⟩ =>
      ⟨append_message store (Msg.model t), [call], none⟩
  | PyResult.ok ⟨PyResult.raised e⟩ =>
      ⟨append_message store (Msg.model (errStringOf e)), [call], none⟩

/-- The spinner block (lines 189-202): issue the routed call and record its
outcome. -/
def sendAndRecord (env : Env) (store : List Msg) (parts : List MsgPart) : TurnResult :=
  recordResponse store (sendParts env parts).1 (sendParts env parts).2

/-- Python truthiness of `prompt` at line 169: `None` and the empty string are
falsy. -/
def promptTruthy : Option Str → Bool
  | none => false
  | some p => !p.isEmpty

/-- The `if prompt:` handler, lines 169-204 of `src/chat.py`.  The branch
structure `if image or url: / if url: ... else: ...` is flattened into the
equivalent `if url: ... elif image: ... else: ...` (the guard makes the two
forms coincide).  `csvexcelattachment` is bound by the surrounding interface
but never read by the handler. -/
def handlePrompt (env : Env) (prompt : Option Str) (txtattachment : Option Str)
    (image : Option Str) (url : Str) (csvexcelattachment : Option Str)
    (store : List Msg) : TurnResult :=
  match prompt with
  | none => ⟨store, [], none⟩
  | some p =>
    if p.isEmpty then ⟨store, [], none⟩
    else
      let txt := buildAttachmentText txtattachment
      if url.isEmpty then
        match image with
        | some f =>
            match env.uploadDecode f with
            | some e => ⟨store, [], some e⟩
            | none =>
                let parts := [MsgPart.text (p ++ txt), MsgPart.image (ImageVal.fromUpload f)]
                sendAndRecord env (append_message store (Msg.user parts)) parts
        | none =>
            let parts := [MsgPart.text (p ++ txt)]
            sendAndRecord env (append_message store (Msg.user parts)) parts
      else
        match env.urlFetch url with
        | some e => ⟨store, [], some e⟩
        | none =>
            let parts := [MsgPart.text (p ++ txt), MsgPart.image (ImageVal.fromUrl url)]
            sendAndRecord env (append_message store (Msg.user parts)) parts

/-- A user-visible notice emitted through `st.warning`, `st.error` or
`st.info`. -/
inductive Notice
  | warningMsg (t : Str)
  | errorMsg (t : Str)
  | infoMsg (t : Str)
deriving DecidableEq

/-- Outcome of `sr.Microphone.list_microphone_names()` inside
`check_microphone` (lines 135-144): the returned list, or the exception. -/
inductive MicCheckResult
  | ok (names : List Str)
  | raised (e : ErrInfo)
deriving DecidableEq

/-- Outcome of the listen-and-recognize block (lines 151-165): recognized
text, `sr.UnknownValueError` from `recognize_google`, `sr.RequestError`, or
any other exception. -/
inductive SpeechOutcome
  | recognized (t : Str)
  | unknownValue
  | requestError
  | otherError (e : ErrInfo)
deriving DecidableEq

/-- Oracles for the speech-recognition hardware and service. -/
structure SpeechEnv where
  micList : MicCheckResult
  speech : SpeechOutcome

def noMicWarning : Str :=
  "No microphone found. Please ensure that a microphone is connected and try again.".toList

def speakNowInfo : Str := "Speak now...".toList

def notUnderstoodWarning : Str :=
  "Sorry, I couldn".toList ++ [Char.ofNat 39] ++ "t understand what you said.".toList

def requestErrorNotice : Str :=
  "Could not request results from Google Speech Recognition service.".toList

/-- `check_microphone` from lines 135-144 of `src/chat.py`, together with the
`st.error` notice it may emit: `False` when listing the microphones raises or
when the list is empty. -/
def check_microphone (senv : SpeechEnv) : Bool × List Notice :=
  match senv.micList with
  | MicCheckResult.raised e =>
      (false, [Notice.errorMsg ("Error checking microphone: ".toList ++ e.descr)])
  | MicCheckResult.ok names => (!names.isEmpty, [])

/-- Lines 130-167 of `src/chat.py`: determine `prompt` for this turn.  With
audio input enabled, the speech pipeline runs (and `prompt` is `None` on any
of its failure branches); otherwise `prompt` comes from `st.chat_input`. -/
def acquirePrompt (audioInput : Bool) (senv : SpeechEnv) (chatInput : Option Str) :
    Option Str × List Notice :=
  if audioInput then
    match check_microphone senv with
    | (false, notices) => (none, notices ++ [Notice.warningMsg noMicWarning])
    | (true, notices) =>
        match senv.speech with
        | SpeechOutcome.recognized t => (some t, notices ++ [Notice.infoMsg speakNowInfo])
        | SpeechOutcome.unknownValue =>
            (none, notices ++ [Notice.infoMsg speakNowInfo,
                               Notice.warningMsg notUnderstoodWarning])
        | SpeechOutcome.requestError =>
            (none, notices ++ [Notice.infoMsg speakNowInfo,
                               Notice.errorMsg requestErrorNotice])
        | SpeechOutcome.otherError e =>
            (none, notices ++ [Notice.errorMsg ("An error occurred: ".toList ++ e.descr)])
  else (chatInput, [])

/-- One full interaction: acquire the prompt (lines 130-167), then run the
`if prompt:` handler (lines 169-204). -/
def runInteraction (env : Env) (senv : SpeechEnv) (audioInput : Bool)
    (chatInput : Option Str) (txtattachment : Option Str) (image : Option Str)
    (url : Str) (csvexcelattachment : Option Str) (store : List Msg) :
    TurnResult × List Notice :=
  match acquirePrompt audioInput senv chatInput with
  | (prompt, notices) =>
      (handlePrompt env prompt txtattachment image url csvexcelattachment store, notices)

/-- Number of content parts a stored message carries: the length of
`prmt['parts']` for a user entry; a model entry stores its text as the single
part (`'parts': response.text`). -/
def partCount : Msg → Nat
  | Msg.user parts => parts.length
  | Msg.model _ => 1

/-- The data-model invariant of section 3 of the spec: a user message has 1 or
2 parts, a model message exactly 1. -/
def msgOk : Msg → Prop
  | Msg.user parts => parts.length = 1 ∨ parts.length = 2
  | m => partCount m = 1

/-- Conversation stores reachable from the initial empty
`st.session_state.chat_session` by running the handler any number of times
with any inputs and any external-service outcomes. -/
inductive ReachableStore : List Msg → Prop
  | init : ReachableStore []
  | step (env : Env) (prompt txtattachment image : Option Str) (url : Str)
      (csvexcelattachment : Option Str) {s : List Msg} :
      ReachableStore s →
      ReachableStore (handlePrompt env prompt txtattachment image url csvexcelattachment s).store

def reqErr : ErrInfo := ⟨"RequestError".toList, "connection failed".toList⟩

def blockedErr : ErrInfo := ⟨"ValueError".toList, "response blocked by safety filter".toList⟩

/-- Environment in which both model invocations themselves raise. -/
def envCallRaises : Env :=
  { urlFetch := fun _ => none
    uploadDecode := fun _ => none
    visionGenerate := fun _ _ => PyResult.raised reqErr
    chatSend := fun _ => PyResult.raised reqErr }

/-- Environment in which the invocations return but reading `response.text`
raises. -/
def envTextBlocked : Env :=
  { urlFetch := fun _ => none
    uploadDecode := fun _ => none
    visionGenerate := fun _ _ => PyResult.ok ⟨PyResult.raised blockedErr⟩
    chatSend := fun _ => PyResult.ok ⟨PyResult.raised blockedErr⟩ }

/-- Environment in which every external operation succeeds. -/
def envOk : Env :=
  { urlFetch := fun _ => none
    uploadDecode := fun _ => none
    visionGenerate := fun _ _ => PyResult.ok ⟨PyResult.ok "ok".toList⟩
    chatSend := fun _ => PyResult.ok ⟨PyResult.ok "ok".toList⟩ }

def fiveThousandAs : Str := List.replicate 5000 'a'

theorem sendParts_fst (env : Env) (parts : List MsgPart) :
    (sendParts env parts).1 =
      if 1 < parts.length then RemoteCall.visionCall parts safetySettings
      else RemoteCall.textCall (headText parts) := by
  unfold sendParts
  split <;> rfl

theorem sendAndRecord_store_cases (env : Env) (store : List Msg) (parts : List MsgPart) :
    (sendAndRecord env store parts).store = store ∨
    ∃ t, (sendAndRecord env store parts).store = store ++ [Msg.model t] := by
  unfold sendAndRecord
  cases h : (sendParts env parts).2 with
  | raised e => exact Or.inl rfl
  | ok resp =>
      obtain ⟨tr⟩ := resp
      cases tr with
      | ok t => exact Or.inr ⟨t, rfl⟩
      | raised e => exact Or.inr ⟨errStringOf e, rfl⟩

theorem sendAndRecord_calls (env : Env) (store : List Msg) (parts : List MsgPart) :
    (sendAndRecord env store parts).calls = [(sendParts env parts).1] := by
  unfold sendAndRecord
  cases h : (sendParts env parts).2 with
  | raised e => rfl
  | ok resp =>
      obtain ⟨tr⟩ := resp
      cases tr with
      | ok t => rfl
      | raised e => rfl

theorem sendAndRecord_aborted (env : Env) (store : List Msg) (parts : List MsgPart) :
    (sendAndRecord env store parts).aborted =
      match (sendParts env parts).2 with
      | PyResult.raised e => some e
      | PyResult.ok _ => none := by
  unfold sendAndRecord
  cases h : (sendParts env parts).2 with
  | raised e => rfl
  | ok resp =>
      obtain ⟨tr⟩ := resp
      cases tr with
      | ok t => rfl
      | raised e => rfl

theorem store_ne_append_cons (store : List Msg) (m : Msg) (rest : List Msg) :
    store ≠ store ++ m :: rest := by
  intro h
  have hl := congrArg List.length h
  simp [List.length_append] at hl

/-- Shape of the send stage: appending the user message and then recording the
routed call's outcome yields the user message followed by at most one model
message, with exactly the routed call issued. -/
theorem sendStage_shape (env : Env) (store : List Msg) (parts : List MsgPart) :
    ∃ tail, (sendAndRecord env (append_message store (Msg.user parts)) parts).store
        = store ++ Msg.user parts :: tail ∧
      (sendAndRecord env (append_message store (Msg.user parts)) parts).calls
        = [(sendParts env parts).1] ∧
      ∀ m ∈ tail, ∃ t, m = Msg.model t := by
  rcases sendAndRecord_store_cases env (append_message store (Msg.user parts)) parts with
    hs | ⟨t, hs⟩
  · refine ⟨[], ?_, sendAndRecord_calls env _ parts, by simp⟩
    rw [hs]
    simp [append_message]
  · refine ⟨[Msg.model t], ?_, sendAndRecord_calls env _ parts, by simp⟩
    rw [hs]
    simp [append_message]

/-- Exhaustive description of one handler run: either nothing was appended and
no call issued (falsy prompt, or an attachment exception), or exactly one user
message of one of the two assembled shapes was appended, the single routed
call was issued on its parts, and whatever follows the user message is a
single model message. -/
theorem handlePrompt_shape (env : Env) (prompt txtattachment image : Option Str)
    (url : Str) (csv : Option Str) (store : List Msg) :
    ((handlePrompt env prompt txtattachment image url csv store).store = store ∧
     (handlePrompt env prompt txtattachment image url csv store).calls = []) ∨
    (∃ parts tail,
      (handlePrompt env prompt txtattachment image url csv store).store
        = store ++ Msg.user parts :: tail ∧
      (handlePrompt env prompt txtattachment image url csv store).calls
        = [(sendParts env parts).1] ∧
      (∃ t, parts = [MsgPart.text t] ∨ ∃ i, parts = [MsgPart.text t, MsgPart.image i]) ∧
      (∀ m ∈ tail, ∃ t, m = Msg.model t)) := by
  cases prompt with
  | none => exact Or.inl ⟨rfl, rfl⟩
  | some p =>
      simp only [handlePrompt]
      by_cases hp : p.isEmpty
      · rw [if_pos hp]
        exact Or.inl ⟨rfl, rfl⟩
      · rw [if_neg hp]
        by_cases hu : url.isEmpty
        · rw [if_pos hu]
          cases image with
          | some f =>
              dsimp only
              cases hf : env.uploadDecode f with
              | some e => exact Or.inl ⟨rfl, rfl⟩
              | none =>
                  dsimp only
                  rcases sendStage_shape env store
                      [MsgPart.text (p ++ buildAttachmentText txtattachment),
                       MsgPart.image (ImageVal.fromUpload f)] with ⟨tail, h1, h2, h3⟩
                  exact Or.inr ⟨_, tail, h1, h2, ⟨_, Or.inr ⟨_, rfl⟩⟩, h3⟩
          | none =>
              dsimp only
              rcases sendStage_shape env store
                  [MsgPart.text (p ++ buildAttachmentText txtattachment)] with
                ⟨tail, h1, h2, h3⟩
              exact Or.inr ⟨_, tail, h1, h2, ⟨_, Or.inl rfl⟩, h3⟩
        · rw [if_neg hu]
          cases hf : env.urlFetch url with
          | some e => exact Or.inl ⟨rfl, rfl⟩
          | none =>
              dsimp only
              rcases sendStage_shape env store
                  [MsgPart.text (p ++ buildAttachmentText txtattachment),
                   MsgPart.image (ImageVal.fromUrl url)] with ⟨tail, h1, h2, h3⟩
              exact Or.inr ⟨_, tail, h1, h2, ⟨_, Or.inr ⟨_, rfl⟩⟩, h3⟩

/-- C5: for every input text, `extract_graphviz_info` equals the reference of
the spec: split the text on triple-backtick markers, then keep, in order and
with duplicates, exactly those segments containing the substring graph or
digraph and containing both braces.  Both sides are total Lean functions of
the input, so the common value is a pure deterministic function of the text. -/
theorem C5_extract_matches_spec (text : Str) :
    extract_graphviz_info text = extract_graph_blocks_spec text := by
  unfold extract_graphviz_info extract_graph_blocks_spec
  dsimp only
  congr 1
  funext g
  simp only [isGraphCandidate, pyContains_eq_decide]

/-- C3: every string returned by `extract_graphviz_info` is one of the
segments obtained by splitting the input on the triple-backtick markers and
contains an opening brace, a closing brace, and one of the substrings
graph/digraph; a split segment lacking any of these is excluded from the
result. -/
theorem C3_extract_only_matching (text g : Str) :
    (g ∈ extract_graphviz_info text →
      g ∈ splitTicks text ∧ pyContains [lbrace] g = true ∧
        pyContains [rbrace] g = true ∧
        (pyContains graphStr g = true ∨ pyContains digraphStr g = true)) ∧
    ((g ∈ splitTicks text ∧
      ¬ (pyContains [lbrace] g = true ∧ pyContains [rbrace] g = true ∧
        (pyContains graphStr g = true ∨ pyContains digraphStr g = true))) →
      g ∉ extract_graphviz_info text) := by
  have hmem : ∀ h : Str, h ∈ extract_graphviz_info text ↔
      h ∈ splitTicks text ∧ isGraphCandidate h = true := by
    intro h
    unfold extract_graphviz_info
    exact List.mem_filter
  constructor
  · intro hg
    rcases (hmem g).mp hg with ⟨hsplit, hcand⟩
    have := hcand
    simp only [isGraphCandidate, Bool.and_eq_true, Bool.or_eq_true] at this
    exact ⟨hsplit, this.2.1, this.2.2, this.1⟩
  · rintro ⟨hsplit, hnot⟩ hg
    rcases (hmem g).mp hg with ⟨_, hcand⟩
    simp only [isGraphCandidate, Bool.and_eq_true, Bool.or_eq_true] at hcand
    exact hnot ⟨hcand.2.1, hcand.2.2, hcand.1⟩

/-- Concrete instance discharging the hypotheses of
`C3_extract_only_matching`: in a text with one graph-shaped fenced block, that
block is returned and satisfies all three containment conditions. -/
theorem C3_witness :
    ("digraph x ".toList ++ [lbrace, 'y', rbrace]) ∈
        splitTicks ("a".toList ++ [btick, btick, btick] ++ "digraph x ".toList ++
          [lbrace, 'y', rbrace] ++ [btick, btick, btick] ++ "b".toList) ∧
      pyContains [lbrace] ("digraph x ".toList ++ [lbrace, 'y', rbrace]) = true ∧
      pyContains [rbrace] ("digraph x ".toList ++ [lbrace, 'y', rbrace]) = true ∧
      (pyContains graphStr ("digraph x ".toList ++ [lbrace, 'y', rbrace]) = true ∨
        pyContains digraphStr ("digraph x ".toList ++ [lbrace, 'y', rbrace]) = true) :=
  (C3_extract_only_matching
      ("a".toList ++ [btick, btick, btick] ++ "digraph x ".toList ++
        [lbrace, 'y', rbrace] ++ [btick, btick, btick] ++ "b".toList)
      ("digraph x ".toList ++ [lbrace, 'y', rbrace])).1 (by decide)

/-- C10: when the prompt is absent (`None`) or the empty string, the handler
appends nothing, issues no remote call, raises nothing, and leaves the
conversation store exactly as it was. -/
theorem C10_empty_prompt (env : Env) (prompt txtattachment image : Option Str)
    (url : Str) (csv : Option Str) (store : List Msg)
    (h : prompt = none ∨ prompt = some []) :
    handlePrompt env prompt txtattachment image url csv store
      = ⟨store, [], none⟩ := by
  rcases h with h | h <;> subst h <;> rfl

/-- Concrete instance discharging the hypothesis of `C10_empty_prompt`. -/
theorem C10_empty_prompt_witness :
    handlePrompt envOk none none none [] none [] = ⟨[], [], none⟩ :=
  C10_empty_prompt envOk none none none [] none [] (Or.inl rfl)

/-- C8: two interactions that differ only in the spreadsheet/CSV attachment
(absent, present, or different contents) produce identical results in every
observable respect: same conversation store, same remote calls, same abort
status, same notices.  The uploaded spreadsheet is never read by the
handler. -/
theorem C8_csv_noninterference (env : Env) (senv : SpeechEnv) (audioInput : Bool)
    (chatInput txtattachment image : Option Str) (url : Str)
    (csv1 csv2 : Option Str) (store : List Msg) :
    runInteraction env senv audioInput chatInput txtattachment image url csv1 store =
      runInteraction env senv audioInput chatInput txtattachment image url csv2 store := rfl

/-- C2 fails on the code: the 5000-character truncation threshold is applied
to the label-prefixed text, not to the attachment alone.  For an attachment of
exactly 5000 characters the incorporated text is not the label followed by the
unmodified attachment: it is truncated and ends in the ellipsis marker. -/
theorem C2_counterexample :
    buildAttachmentText (some fiveThousandAs) ≠ txtFileLabel ++ fiveThousandAs ∧
    (buildAttachmentText (some fiveThousandAs)).drop 5000 = ellipsisStr := by
  have hlab : txtFileLabel.length = 15 := by decide
  have hell : ellipsisStr.length = 3 := by decide
  have hlen : (txtFileLabel ++ fiveThousandAs).length = 5015 := by
    rw [List.length_append, hlab, fiveThousandAs, List.length_replicate]
  have hbuild : buildAttachmentText (some fiveThousandAs)
      = (txtFileLabel ++ fiveThousandAs).take 5000 ++ ellipsisStr := by
    unfold buildAttachmentText
    dsimp only
    rw [if_pos]
    rw [hlen]
    omega
  have htk : ((txtFileLabel ++ fiveThousandAs).take 5000).length = 5000 := by
    simp [List.length_take, hlen]
  constructor
  · intro h
    have hl := congrArg List.length h
    rw [hbuild] at hl
    simp [htk, hell, hlen] at hl
  · rw [hbuild, List.drop_left' htk]

/-- C2 amended: the truncation threshold counts the 15-character label
prepended to the attachment.  An attachment of at most 4985 characters is
incorporated unmodified after the label; a longer one is cut to its first
4985 characters, after the label and before the ellipsis marker. -/
theorem C2_amended (content : Str) :
    (content.length ≤ 4985 →
      buildAttachmentText (some content) = txtFileLabel ++ content) ∧
    (4985 < content.length →
      buildAttachmentText (some content)
        = txtFileLabel ++ content.take 4985 ++ ellipsisStr) := by
  have hlab : txtFileLabel.length = 15 := by decide
  have hlen : (txtFileLabel ++ content).length = 15 + content.length := by
    simp [hlab]
  constructor
  · intro h
    unfold buildAttachmentText
    dsimp only
    rw [if_neg]
    rw [hlen]
    omega
  · intro h
    have hcond : 5000 < (txtFileLabel ++ content).length := by omega
    have htake : (txtFileLabel ++ content).take 5000
        = txtFileLabel ++ content.take 4985 := by
      rw [List.take_append_eq_append_take, hlab,
        List.take_of_length_le (by omega : txtFileLabel.length ≤ 5000)]
    unfold buildAttachmentText
    dsimp only
    rw [if_pos hcond, htake, List.append_assoc]

/-- Concrete instance discharging a hypothesis of `C2_amended`: a one-character
attachment is incorporated unmodified after the label. -/
theorem C2_amended_witness :
    buildAttachmentText (some ['a']) = txtFileLabel ++ ['a'] :=
  (C2_amended ['a']).1 (by decide)

/-- C4: whenever a handler run appends an assembled user message, it issues
exactly one remote invocation for it: the vision model's single-shot call with
the fixed safety settings (harassment and hate speech blocked at low and
above) when the message has more than one part, and the stateful text-chat
call on the first part otherwise. -/
theorem C4_routing (env : Env) (prompt txtattachment image : Option Str)
    (url : Str) (csv : Option Str) (store : List Msg) (parts : List MsgPart)
    (rest : List Msg)
    (h : (handlePrompt env prompt txtattachment image url csv store).store
        = store ++ Msg.user parts :: rest) :
    (handlePrompt env prompt txtattachment image url csv store).calls
      = [if 1 < parts.length then RemoteCall.visionCall parts safetySettings
         else RemoteCall.textCall (headText parts)] := by
  rcases handlePrompt_shape env prompt txtattachment image url csv store with
    ⟨hs, _⟩ | ⟨parts0, tail0, hs, hc, _, _⟩
  · rw [hs] at h
    exact absurd h (store_ne_append_cons store _ rest)
  · rw [hs] at h
    have h2 := List.append_cancel_left h
    have hparts : parts0 = parts := by
      have := List.head_eq_of_cons_eq h2
      exact (Msg.user.injEq parts0 parts).mp this
    rw [hc, hparts, sendParts_fst]

/-- Concrete instance discharging the hypothesis of `C4_routing`: a one-part
message is routed to the stateful text call. -/
theorem C4_routing_witness :
    (handlePrompt envOk (some "hi".toList) none none [] none []).calls
      = [if 1 < ([MsgPart.text "hi".toList] : List MsgPart).length
         then RemoteCall.visionCall [MsgPart.text "hi".toList] safetySettings
         else RemoteCall.textCall (headText [MsgPart.text "hi".toList])] :=
  C4_routing envOk (some "hi".toList) none none [] none []
    [MsgPart.text "hi".toList] [Msg.model "ok".toList] (by decide)

/-- C7: when the prompt is non-empty and both an uploaded image and a
non-empty image URL are supplied, and the URL fetch succeeds, the assembled
user message carries the image obtained from the URL fetch — never the
uploaded file. -/
theorem C7_url_precedence (env : Env) (p : Str) (txtattachment : Option Str)
    (f : Str) (url : Str) (csv : Option Str) (store : List Msg)
    (hp : p.isEmpty = false) (hurl : url.isEmpty = false)
    (hfetch : env.urlFetch url = none) :
    ∃ rest, (handlePrompt env (some p) txtattachment (some f) url csv store).store
      = store ++ Msg.user [MsgPart.text (p ++ buildAttachmentText txtattachment),
                           MsgPart.image (ImageVal.fromUrl url)] :: rest := by
  have hp' : ¬ p.isEmpty = true := by simp [hp]
  have hurl' : ¬ url.isEmpty = true := by simp [hurl]
  simp only [handlePrompt]
  rw [if_neg hp', if_neg hurl']
  rw [hfetch]
  rcases sendStage_shape env store
      [MsgPart.text (p ++ buildAttachmentText txtattachment),
       MsgPart.image (ImageVal.fromUrl url)] with ⟨tail, h1, _, _⟩
  exact ⟨tail, h1⟩

/-- Concrete instance discharging the hypotheses of `C7_url_precedence`. -/
theorem C7_url_precedence_witness :
    ∃ rest, (handlePrompt envOk (some "hi".toList) none (some "up.png".toList)
        "u".toList none []).store
      = [] ++ Msg.user [MsgPart.text ("hi".toList ++ buildAttachmentText none),
                        MsgPart.image (ImageVal.fromUrl "u".toList)] :: rest :=
  C7_url_precedence envOk "hi".toList none "up.png".toList "u".toList none []
    (by decide) (by decide) (by decide)

/-- C1 fails on the code: only the `try` around `append_message` protects
reading `response.text`; an exception raised by the remote invocation itself
(`generate_content`/`resolve`/`send_message`, lines 190-197) is raised outside
the `try`.  In an environment where `send_message` raises, the handler aborts
with that exception and no model-role message is appended for the attempt. -/
theorem C1_counterexample :
    (handlePrompt envCallRaises (some "hi".toList) none none [] none []).aborted
        = some reqErr ∧
    (handlePrompt envCallRaises (some "hi".toList) none none [] none []).store
        = [Msg.user [MsgPart.text "hi".toList]] := by
  constructor <;> rfl

/-- C1 amended: for every failure raised while reading the remote response's
text — the only failures the `try` of lines 199-202 covers — the gateway does
not propagate the error: it appends exactly one model-role message whose text
contains the failure's kind and description, so the store grows by exactly one
for that attempt.  Failures raised by the call invocation itself propagate
instead (see the counterexample). -/
theorem C1_error_capture (env : Env) (store : List Msg) (parts : List MsgPart)
    (resp : RemoteResponse) (e : ErrInfo)
    (hcall : (sendParts env parts).2 = PyResult.ok resp)
    (htext : resp.textResult = PyResult.raised e) :
    (sendAndRecord env store parts).store
        = store ++ [Msg.model (errStringOf e)] ∧
    (sendAndRecord env store parts).store.length = store.length + 1 ∧
    (sendAndRecord env store parts).aborted = none ∧
    e.kind <:+: errStringOf e ∧ e.descr <:+: errStringOf e := by
  obtain ⟨tr⟩ := resp
  cases htext
  have hstore : (sendAndRecord env store parts).store
      = store ++ [Msg.model (errStringOf e)] := by
    unfold sendAndRecord
    rw [hcall]
    simp [recordResponse, append_message]
  have haborted : (sendAndRecord env store parts).aborted = none := by
    unfold sendAndRecord
    rw [hcall]
    simp [recordResponse]
  refine ⟨hstore, ?_, haborted, ?_, ?_⟩
  · rw [hstore]
    simp
  · unfold errStringOf
    exact ((List.prefix_append e.kind (": ".toList)).trans
      (List.prefix_append (e.kind ++ ": ".toList) e.descr)).isInfix
  · unfold errStringOf
    exact (List.suffix_append (e.kind ++ ": ".toList) e.descr).isInfix

/-- Concrete instance discharging the hypotheses of `C1_error_capture`: the
chat call returns but `response.text` raises, and the error is absorbed into
one model message. -/
theorem C1_error_capture_witness :
    (sendAndRecord envTextBlocked [] [MsgPart.text "hi".toList]).store
        = [] ++ [Msg.model (errStringOf blockedErr)] ∧
    (sendAndRecord envTextBlocked [] [MsgPart.text "hi".toList]).store.length
        = List.length ([] : List Msg) + 1 ∧
    (sendAndRecord envTextBlocked [] [MsgPart.text "hi".toList]).aborted = none ∧
    blockedErr.kind <:+: errStringOf blockedErr ∧
    blockedErr.descr <:+: errStringOf blockedErr :=
  C1_error_capture envTextBlocked [] [MsgPart.text "hi".toList]
    ⟨PyResult.raised blockedErr⟩ blockedErr rfl rfl

/-- C6: every message in a reachable conversation store satisfies the data
model invariant — a user message has 1 or 2 parts, a model message carries
exactly one part (its text string, possibly an error description) — and a
handler run never mutates stored messages: the previous store is a prefix of
the new one. -/
theorem C6_store_invariant :
    (∀ s, ReachableStore s → ∀ m ∈ s, msgOk m) ∧
    (∀ (env : Env) (prompt txtattachment image : Option Str) (url : Str)
        (csv : Option Str) (s : List Msg),
      s <+: (handlePrompt env prompt txtattachment image url csv s).store) := by
  have hstep : ∀ (env : Env) (prompt txtattachment image : Option Str)
      (url : Str) (csv : Option Str) (s : List Msg),
      (∀ m ∈ s, msgOk m) →
      (∀ m ∈ (handlePrompt env prompt txtattachment image url csv s).store, msgOk m) ∧
      s <+: (handlePrompt env prompt txtattachment image url csv s).store := by
    intro env prompt txtattachment image url csv s hs
    rcases handlePrompt_shape env prompt txtattachment image url csv s with
      ⟨heq, _⟩ | ⟨parts, tail, heq, _, ⟨t, hshape⟩, htail⟩
    · rw [heq]
      exact ⟨hs, List.prefix_rfl⟩
    · rw [heq]
      constructor
      · intro m hm
        rcases List.mem_append.mp hm with hold | hnew
        · exact hs m hold
        · rcases List.mem_cons.mp hnew with hu | ht
          · subst hu
            rcases hshape with h1 | ⟨i, h2⟩
            · rw [h1]
              exact Or.inl rfl
            · rw [h2]
              exact Or.inr rfl
          · rcases htail m ht with ⟨t0, hm0⟩
            subst hm0
            exact rfl
      · exact ⟨Msg.user parts :: tail, rfl⟩
  constructor
  · intro s hreach
    induction hreach with
    | init => intro m hm; cases hm
    | step env prompt txtattachment image url csv hr ih =>
        exact (hstep env prompt txtattachment image url csv _ ih).1
  · intro env prompt txtattachment image url csv s
    rcases handlePrompt_shape env prompt txtattachment image url csv s with
      ⟨heq, _⟩ | ⟨parts, tail, heq, _, _, _⟩
    · rw [heq]
    · rw [heq]
      exact ⟨Msg.user parts :: tail, rfl⟩

/-- Concrete instance discharging the hypotheses inside `C6_store_invariant`:
the store after one successful turn from the empty session satisfies the
invariant at its first message. -/
theorem C6_store_invariant_witness :
    msgOk (Msg.user [MsgPart.text "hi".toList]) :=
  C6_store_invariant.1
    (handlePrompt envOk (some "hi".toList) none none [] none []).store
    (ReachableStore.step envOk (some "hi".toList) none none [] none
      ReachableStore.init)
    (Msg.user [MsgPart.text "hi".toList]) (by decide)

/-- C9: with audio input enabled and no usable microphone, no message is sent:
the handler leaves the store unchanged, issues no remote call, and the
no-microphone warning is shown. -/
theorem C9_no_microphone (env : Env) (senv : SpeechEnv)
    (chatInput txtattachment image : Option Str) (url : Str) (csv : Option Str)
    (store : List Msg)
    (h : (check_microphone senv).1 = false) :
    (runInteraction env senv true chatInput txtattachment image url csv store).1.store
        = store ∧
    (runInteraction env senv true chatInput txtattachment image url csv store).1.calls
        = [] ∧
    Notice.warningMsg noMicWarning ∈
      (runInteraction env senv true chatInput txtattachment image url csv store).2 := by
  have hacq : acquirePrompt true senv chatInput
      = (none, (check_microphone senv).2 ++ [Notice.warningMsg noMicWarning]) := by
    unfold acquirePrompt
    rw [if_pos rfl]
    cases hc : check_microphone senv with
    | mk b notices =>
        rw [hc] at h
        dsimp at h
        subst h
        rfl
  unfold runInteraction
  rw [hacq]
  refine ⟨rfl, rfl, ?_⟩
  simp

/-- Concrete instance discharging the hypothesis of `C9_no_microphone`:
`list_microphone_names` returns an empty list. -/
theorem C9_no_microphone_witness :
    (runInteraction envOk ⟨MicCheckResult.ok [], SpeechOutcome.unknownValue⟩ true
        (some "hi".toList) none none [] none []).1.store = [] ∧
    (runInteraction envOk ⟨MicCheckResult.ok [], SpeechOutcome.unknownValue⟩ true
        (some "hi".toList) none none [] none []).1.calls = [] ∧
    Notice.warningMsg noMicWarning ∈
      (runInteraction envOk ⟨MicCheckResult.ok [], SpeechOutcome.unknownValue⟩ true
        (some "hi".toList) none none [] none []).2 :=
  C9_no_microphone envOk ⟨MicCheckResult.ok [], SpeechOutcome.unknownValue⟩
    (some "hi".toList) none none [] none [] rfl
